import Mathlib

/-!
Verification of the live backend-rebuild pipeline of the
Vite + React + Express full-stack template.

The definitions below are a shallow embedding of `server/index.ts` and
`server/vite.ts`: the logging middleware, the bundle-artifact cleanup pass
(`cleanupOldBundles`), the build/load/swap step (`loadBackend`), the chokidar
watch handler, the main startup sequence, the timestamped artifact naming, and
the dev-mode HTML rewrite of `setupVite`.
-/

namespace Srv

/-! ### Logging middleware (`server/index.ts`, lines 16-61) -/

/-- JS `s.slice(0, n)`: the first `n` characters of `s`. -/
def jsSlice (s : String) (n : Nat) : String := String.mk (s.data.take n)

/-- The ellipsis marker appended by the logger after truncation. -/
def ellipsis : String := "…"

/-- `responseStr.length > 100 ? responseStr.slice(0, 100) + "…" : responseStr`
(lines 45-48). -/
def trimmedResponse (responseStr : String) : String :=
  if responseStr.length > 100 then jsSlice responseStr 100 ++ ellipsis
  else responseStr

/-- `logLine.length > 200 ? logLine.slice(0, 79) + "…" : logLine`
(lines 52-54). -/
def capLine (logLine : String) : String :=
  if logLine.length > 200 then jsSlice logLine 79 ++ ellipsis
  else logLine

/-- The log line composed by the `finish` listener (lines 30-56).
`body`, `query` and `resp` are the already-serialized request body, query
params and captured JSON response; `none` models the absent/empty case in
which the corresponding segment is not appended. -/
def composeLogLine (method reqPath : String) (status duration : Nat)
    (body query resp : Option String) : String :=
  let l0 := method ++ " " ++ reqPath ++ " " ++ toString status ++ " in "
              ++ toString duration ++ "ms"
  let l1 := match body with
    | some b => l0 ++ " :: body: " ++ b
    | none => l0
  let l2 := match query with
    | some q => l1 ++ " :: query: " ++ q
    | none => l1
  let l3 := match resp with
    | some r => l2 ++ " :: response: " ++ trimmedResponse r
    | none => l2
  capLine l3

/-! ### Logger non-interference model (`server/index.ts`, lines 16-27)

A handler's effect on the outgoing response is a sequence of primitive
actions. `applyPlain` interprets them with the original `res.json`;
`applyLogged` interprets them with the wrapper installed by the middleware,
which records the body and then forwards the very same body to the original
`res.json` (lines 21-25), additionally threading the captured value. -/

/-- The client-observable part of an express response. -/
structure Resp where
  status : Nat
  headers : List (String × String)
  body : Option String
deriving DecidableEq

/-- Primitive response actions a handler may perform. -/
inductive RespAction where
  | setStatus (n : Nat)
  | setHeader (k v : String)
  | json (b : String)

/-- The original `res.json`: serialize and store the body on the response. -/
def sendJson (b : String) (r : Resp) : Resp := { r with body := some b }

/-- Interpret one action against the bare response (no logger installed). -/
def applyPlain (r : Resp) (a : RespAction) : Resp :=
  match a with
  | .setStatus n => { r with status := n }
  | .setHeader k v => { r with headers := (k, v) :: r.headers }
  | .json b => sendJson b r

/-- Interpret one action with the logging middleware installed: its wrapped
`res.json` captures `bodyJson` and then calls the original with the same
arguments, returning its result (lines 21-25). -/
def applyLogged (s : Resp × Option String) (a : RespAction) :
    Resp × Option String :=
  match a with
  | .json b => (sendJson b s.1, some b)
  | .setStatus n => (applyPlain s.1 (.setStatus n), s.2)
  | .setHeader k v => (applyPlain s.1 (.setHeader k v), s.2)

/-! ### Backend loader and route swapper (`server/index.ts`, lines 109-200) -/

/-- Routes are identified abstractly by name. -/
abbrev Route := String

/-- The mutable server state: the shared router's internal stack
(`backendRouter.stack`), the console log, and whether `app.listen` has run. -/
structure ServerState where
  stack : List Route
  logs : List String
  listening : Bool
deriving DecidableEq

/-- A loaded bundle module. `registerRoutes = some rs` means the module
exports `registerRoutes` and running it against an emptied router registers
exactly `rs`; `none` means the export is absent. -/
structure BackendModule where
  registerRoutes : Option (List Route)
deriving DecidableEq

/-- `loadBackend` (lines 109-137). The bundling step either throws
(`Except.error`, propagated to the caller before any router mutation) or
produces an artifact whose import yields `m`. If the module has a
`registerRoutes` export, the router stack is cleared and repopulated
(lines 129-131); otherwise the violation is logged and the swap is skipped
(lines 132-134). -/
def loadBackend (st : ServerState) (build : Except String BackendModule) :
    Except String ServerState :=
  match build with
  | .error e => .error e
  | .ok m =>
    match m.registerRoutes with
    | some routes => .ok { st with stack := routes }
    | none =>
        .ok { st with
                logs := st.logs ++ ["Backend module has no registerRoutes export!"] }

/-- The chokidar watch handler's rebuild call (lines 190-196):
`loadBackend().then(log reloaded).catch(log failure)`. -/
def watchRebuild (st : ServerState) (build : Except String BackendModule) :
    ServerState :=
  match loadBackend st build with
  | .ok st1 => { st1 with logs := st1.logs ++ ["🔄 Backend reloaded"] }
  | .error _ => { st with logs := st.logs ++ ["Failed to build backend"] }

/-- The watch-event filter (line 189):
`path.endsWith(".ts") && path !== "server/index.ts"`. -/
def shouldRebuild (eventType changedPath : String) : Bool :=
  ".ts".data.isSuffixOf changedPath.data && changedPath != "server/index.ts"

/-- One watcher event (lines 187-198): run the rebuild iff the filter
accepts the changed path. The returned flag records whether a rebuild was
triggered. -/
def watcherStep (st : ServerState) (eventType changedPath : String)
    (build : Except String BackendModule) : ServerState × Bool :=
  if shouldRebuild eventType changedPath then (watchRebuild st build, true)
  else (st, false)

/-- State before the main IIFE runs: empty router, nothing logged, listener
closed. -/
def initState : ServerState := { stack := [], logs := [], listening := false }

/-- The main IIFE (lines 165-177): `await loadBackend().catch(err =>
console.error("Failed to build backend"))`, then `app.listen(port, ...)`
unconditionally. -/
def startupServer (firstBuild : Except String BackendModule) : ServerState :=
  let st1 :=
    match loadBackend initState firstBuild with
    | .ok st => st
    | .error _ =>
        { initState with logs := initState.logs ++ ["Failed to build backend"] }
  { st1 with listening := true }

/-- Whether a request for `r` is served by the current route table. -/
def dispatch (st : ServerState) (r : Route) : Bool := st.stack.contains r

/-! ### Bundle cleanup (`cleanupOldBundles`, `server/index.ts` lines 69-107) -/

/-- `file.startsWith("backend.dist.") && file.endsWith(".cjs")`
(lines 79-81). -/
def isBundleFile (f : String) : Bool :=
  "backend.dist.".data.isPrefixOf f.data && ".cjs".data.isSuffixOf f.data

/-- Decimal value of a digit run, as `parseInt` computes it. -/
def digitsVal (ds : List Char) : Nat :=
  ds.foldl (fun n c => n * 10 + (c.toNat - 48)) 0

/-- Try to match the regex `backend\.dist\.(\d+)\.cjs$` at this position:
the literal prefix, then a nonempty greedy digit run, then `.cjs` at the very
end. Returns the parsed capture group. -/
def tsMatchAt (l : List Char) : Option Nat :=
  if "backend.dist.".data.isPrefixOf l then
    let rest := l.drop "backend.dist.".data.length
    let ds := rest.takeWhile Char.isDigit
    if !ds.isEmpty && rest.drop ds.length == ".cjs".data then some (digitsVal ds)
    else none
  else none

/-- Leftmost match of `backend\.dist\.(\d+)\.cjs$` over the whole name, as
`file.match(...)` finds it. -/
def tsMatch : List Char → Option Nat
  | [] => none
  | c :: tl => (tsMatchAt (c :: tl)).orElse fun _ => tsMatch tl

/-- `parseInt(file.match(/backend\.dist\.(\d+)\.cjs$/)?.[1] || "0")`
(lines 89-91): a name whose timestamp segment does not parse gets 0. -/
def bundleTimestamp (f : String) : Nat := (tsMatch f.data).getD 0

/-- The `{ name, path, timestamp }` record built on lines 86-92 (the `path`
field only prefixes the directory and is dropped here). -/
structure BundleEntry where
  name : String
  timestamp : Nat
deriving DecidableEq

def toEntry (f : String) : BundleEntry := ⟨f, bundleTimestamp f⟩

/-- Insert into a descending-by-timestamp list, before the first
strictly-smaller element. Together with `sortDesc` this reproduces the
stable descending sort of `Array.prototype.sort((a, b) => b.timestamp -
a.timestamp)` (line 93): ECMAScript sorts are stable and a stable sort for a
total preorder has a unique result. -/
def insertDesc (x : BundleEntry) : List BundleEntry → List BundleEntry
  | [] => [x]
  | y :: ys =>
      if y.timestamp ≤ x.timestamp then x :: y :: ys else y :: insertDesc x ys

def sortDesc : List BundleEntry → List BundleEntry
  | [] => []
  | x :: xs => insertDesc x (sortDesc xs)

/-- The names `cleanupOldBundles` attempts to unlink: when more than 2
matching files exist, everything after the first 2 of the descending sort
(`.sort(...).slice(2)`, lines 84-94); otherwise nothing. -/
def filesToDelete (files : List String) : List String :=
  let bundleFiles := files.filter isBundleFile
  if 2 < bundleFiles.length then
    ((sortDesc (bundleFiles.map toEntry)).drop 2).map BundleEntry.name
  else []

/-- Directory contents after the prune pass. `unlinkOk f = false` models an
`fs.unlink` failure for `f`; the failure is swallowed (lines 96-102), so the
pass is total and a failed deletion merely leaves the file in place. -/
def remainingAfterCleanup (files : List String) (unlinkOk : String → Bool) :
    List String :=
  files.filter fun f => !((filesToDelete files).contains f && unlinkOk f)

/-! ### Artifact naming (`loadBackend`, `server/index.ts` lines 110-115) -/

/-- Character of a decimal digit value. -/
def digitChar (d : Nat) : Char := Char.ofNat (48 + d)

/-- The decimal digits of `n`, most significant first, as a JS template
literal renders an integer (`0` renders as `"0"`). -/
def decimalDigits (n : Nat) : List Nat :=
  if n = 0 then [0] else (Nat.digits 10 n).reverse

/-- Decimal rendering of a natural number, as `${timestamp}` produces it. -/
def natToDecimal (n : Nat) : String :=
  String.mk ((decimalDigits n).map digitChar)

/-- ``dist/server/backend.dist.${timestamp}.cjs`` (lines 111-115), where
`timestamp` is the `Date.now()` reading at the start of the build. -/
def bundleOutfile (timestamp : Nat) : String :=
  "dist/server/backend.dist." ++ natToDecimal timestamp ++ ".cjs"

/-- The artifact filenames of successive builds whose `Date.now()` readings
are `clocks`. -/
def buildFilenames (clocks : List Nat) : List String :=
  clocks.map bundleOutfile

/-! ### Dev-mode HTML rewrite (`setupVite`, `server/vite.ts` lines 62-85) -/

/-- Substring occurrence test over character lists. -/
def containsSub (l pat : List Char) : Bool :=
  match l with
  | [] => pat.isEmpty
  | _ :: tl => pat.isPrefixOf l || containsSub tl pat

/-- JS `String.prototype.replace` with a plain-string pattern: splice the
replacement in at the leftmost occurrence only. -/
def replaceFirstAux (pat repl : List Char) : List Char → List Char
  | [] => []
  | c :: rest =>
      if pat.isPrefixOf (c :: rest) then repl ++ (c :: rest).drop pat.length
      else c :: replaceFirstAux pat repl rest

def replaceFirst (s pat repl : String) : String :=
  String.mk (replaceFirstAux pat.data repl.data s.data)

/-- The fresh script reference `src="/main.tsx?v=${token}"` built on
line 77, where `token` is the generated `nanoid()`. -/
def injectToken (token : String) : String :=
  "src=\"/main.tsx?v=" ++ token ++ "\""

/-- The template rewrite of the dev HTML fallback handler (lines 75-78). -/
def rewriteTemplate (template token : String) : String :=
  replaceFirst template "src=\"/main.tsx\"" (injectToken token)

/-! ### Logger theorems (C8, C9) -/

theorem length_jsSlice (s : String) (n : Nat) :
    (jsSlice s n).length = min n s.length :=
  List.length_take n s.data

theorem length_ellipsis : ellipsis.length = 1 := rfl

theorem capLine_length_le (logLine : String) : (capLine logLine).length ≤ 200 := by
  unfold capLine
  split
  · rw [String.length_append, length_jsSlice, length_ellipsis]
    omega
  · omega

/-- C8: every emitted log line embeds the serialized response truncated at 100
characters with an ellipsis appended exactly when the serialization exceeds
that bound, and the composed line is capped so its final length never exceeds
200 characters. -/
theorem c8_log_line_bounds (method reqPath : String) (status duration : Nat)
    (body query resp : Option String) :
    (composeLogLine method reqPath status duration body query resp).length ≤ 200 ∧
    (∀ r : String, 100 < r.length →
      trimmedResponse r = jsSlice r 100 ++ ellipsis ∧
      (trimmedResponse r).length = 101) ∧
    (∀ r : String, r.length ≤ 100 → trimmedResponse r = r) := by
  refine ⟨capLine_length_le _, ?_, ?_⟩
  · intro r h
    have he : trimmedResponse r = jsSlice r 100 ++ ellipsis := by
      unfold trimmedResponse
      rw [if_pos h]
    refine ⟨he, ?_⟩
    rw [he, String.length_append, length_jsSlice, length_ellipsis]
    omega
  · intro r h
    unfold trimmedResponse
    rw [if_neg (by omega)]

set_option maxRecDepth 40000 in
/-- C8 witness: at a concrete request with a 150-character response, the
composed line is within the 200-character cap and the snippet is the
100-character truncation with an ellipsis. -/
theorem c8_witness :
    (composeLogLine "GET" "/api/hello" 200 3 none none
        (some (String.mk (List.replicate 150 'a')))).length ≤ 200 ∧
    100 < (String.mk (List.replicate 150 'a')).length ∧
    trimmedResponse (String.mk (List.replicate 150 'a'))
      = jsSlice (String.mk (List.replicate 150 'a')) 100 ++ ellipsis :=
  ⟨(c8_log_line_bounds "GET" "/api/hello" 200 3 none none
      (some (String.mk (List.replicate 150 'a')))).1,
   by decide,
   ((c8_log_line_bounds "GET" "/api/hello" 200 3 none none
      (some (String.mk (List.replicate 150 'a')))).2.1
      (String.mk (List.replicate 150 'a')) (by decide)).1⟩

/-- C9: the logging middleware never alters the response it observes: running
any sequence of response actions with the logger's wrapped `res.json`
installed yields exactly the response produced by the original `res.json`
alone — status, headers and body included. -/
theorem c9_logger_preserves_response (acts : List RespAction) (r : Resp)
    (c : Option String) :
    (acts.foldl applyLogged (r, c)).1 = acts.foldl applyPlain r := by
  induction acts generalizing r c with
  | nil => rfl
  | cons a rest ih =>
    cases a <;> simp [applyLogged, applyPlain, ih]

/-! ### Loader / watcher / startup theorems (C1, C2, C4, C5) -/

/-- C1 counterexample: with the initial build failing, the code catches the
rejection (`.catch` on line 167) and still opens the HTTP listener
(line 175), with an empty route table — the failure is not fatal. -/
theorem c1_counterexample :
    (startupServer (Except.error "BuildError: syntax error")).listening = true ∧
    (startupServer (Except.error "BuildError: syntax error")).stack = [] ∧
    (startupServer (Except.error "BuildError: syntax error")).logs
      = ["Failed to build backend"] :=
  ⟨rfl, rfl, rfl⟩

/-- C1 amended: if the first `loadBackend` invocation throws, the error is
caught and reported as "Failed to build backend", and the listener opens
anyway, serving with an empty API route table. -/
theorem c1_amended (e : String) :
    (startupServer (Except.error e)).listening = true ∧
    (startupServer (Except.error e)).stack = [] ∧
    (startupServer (Except.error e)).logs = ["Failed to build backend"] :=
  ⟨rfl, rfl, rfl⟩

/-- C2: a rebuild whose bundle step throws leaves the shared router's route
table exactly as it was (no entry cleared, none added — every request
dispatches as before), appends the failure report to the log, and leaves the
listener state untouched (the process keeps serving). -/
theorem c2_failed_rebuild_keeps_routes (st : ServerState) (e : String) :
    (watchRebuild st (Except.error e)).stack = st.stack ∧
    (watchRebuild st (Except.error e)).logs
      = st.logs ++ ["Failed to build backend"] ∧
    (watchRebuild st (Except.error e)).listening = st.listening ∧
    ∀ r, dispatch (watchRebuild st (Except.error e)) r = dispatch st r :=
  ⟨rfl, rfl, rfl, fun _ => rfl⟩

/-- C4: loading a freshly built artifact whose module lacks a
`registerRoutes` export logs the violation and skips the swap: the previous
route table is returned unchanged. -/
theorem c4_missing_export_skips_swap (st : ServerState) (m : BackendModule)
    (h : m.registerRoutes = none) :
    loadBackend st (Except.ok m)
      = Except.ok { st with
          logs := st.logs ++ ["Backend module has no registerRoutes export!"] } := by
  cases m with
  | mk rr =>
    cases rr with
    | none => rfl
    | some v => exact absurd h (by simp)

/-- C4 witness: the module with no `registerRoutes` export, loaded over the
initial state, leaves the stack empty and logs the violation. -/
theorem c4_witness :
    (BackendModule.mk none).registerRoutes = none ∧
    loadBackend initState (Except.ok (BackendModule.mk none))
      = Except.ok { initState with
          logs := ["Backend module has no registerRoutes export!"] } :=
  ⟨rfl, c4_missing_export_skips_swap initState (BackendModule.mk none) rfl⟩

/-- C5: a watcher event triggers a rebuild iff the changed path ends in
`.ts` and is not `server/index.ts`; when the filter rejects the event the
state is untouched, and the event type never matters. -/
theorem c5_watch_filter (st : ServerState) (ev changedPath : String)
    (build : Except String BackendModule) :
    ((watcherStep st ev changedPath build).2 = true ↔
      (".ts".data <:+ changedPath.data ∧ changedPath ≠ "server/index.ts")) ∧
    ((watcherStep st ev changedPath build).2 = false →
      (watcherStep st ev changedPath build).1 = st) := by
  constructor
  · unfold watcherStep shouldRebuild
    split
    · rename_i hcond
      simp only [Bool.and_eq_true, List.isSuffixOf_iff_suffix, bne_iff_ne] at hcond
      simp [hcond]
    · rename_i hcond
      simp only [Bool.and_eq_true, List.isSuffixOf_iff_suffix, bne_iff_ne] at hcond
      simpa using hcond
  · unfold watcherStep
    split
    · simp
    · simp

/-! ### Cleanup theorems (C3, C10) -/

theorem insertDesc_perm (x : BundleEntry) (l : List BundleEntry) :
    List.Perm (insertDesc x l) (x :: l) := by
  induction l with
  | nil => exact List.Perm.refl _
  | cons y ys ih =>
    unfold insertDesc
    split
    · exact List.Perm.refl _
    · exact (List.Perm.cons y ih).trans (List.Perm.swap x y ys)

theorem sortDesc_perm (l : List BundleEntry) : List.Perm (sortDesc l) l := by
  induction l with
  | nil => exact List.Perm.refl _
  | cons x xs ih => exact (insertDesc_perm x (sortDesc xs)).trans (List.Perm.cons x ih)

theorem insertDesc_pairwise (x : BundleEntry) (l : List BundleEntry)
    (h : l.Pairwise fun a b => b.timestamp ≤ a.timestamp) :
    (insertDesc x l).Pairwise fun a b => b.timestamp ≤ a.timestamp := by
  induction l with
  | nil => simp [insertDesc]
  | cons y ys ih =>
    rw [List.pairwise_cons] at h
    unfold insertDesc
    split
    · rename_i hle
      rw [List.pairwise_cons]
      refine ⟨?_, List.pairwise_cons.mpr h⟩
      intro b hb
      rcases List.mem_cons.mp hb with rfl | hbys
      · omega
      · have := h.1 b hbys
        omega
    · rename_i hgt
      rw [List.pairwise_cons]
      refine ⟨?_, ih h.2⟩
      intro b hb
      have hb1 := (insertDesc_perm x ys).mem_iff.mp hb
      rcases List.mem_cons.mp hb1 with hbx | hbys
      · subst hbx; omega
      · exact h.1 b hbys

theorem sortDesc_pairwise (l : List BundleEntry) :
    (sortDesc l).Pairwise fun a b => b.timestamp ≤ a.timestamp := by
  induction l with
  | nil => simp [sortDesc]
  | cons x xs ih => exact insertDesc_pairwise x (sortDesc xs) ih

theorem timestamp_of_mem_sortDesc {files : List String} {e : BundleEntry}
    (he : e ∈ sortDesc ((files.filter isBundleFile).map toEntry)) :
    e.timestamp = bundleTimestamp e.name := by
  have := (sortDesc_perm _).mem_iff.mp he
  obtain ⟨f, _, rfl⟩ := List.mem_map.mp this
  rfl

/-- C3: after a completed prune pass in which every attempted deletion
succeeded, at most 2 names matching the bundle prefix/suffix remain in the
directory; every deleted name's embedded timestamp is at most every retained
matching name's timestamp (so the retained ones are the 2 newest); and every
matching file either remains or was scheduled for (asynchronous, swallowed)
deletion. -/
theorem c3_retention (files : List String) (unlinkOk : String → Bool)
    (hok : ∀ f ∈ filesToDelete files, unlinkOk f = true) :
    ((remainingAfterCleanup files unlinkOk).filter isBundleFile).length ≤ 2 ∧
    (∀ d ∈ filesToDelete files, ∀ r ∈ remainingAfterCleanup files unlinkOk,
      isBundleFile r = true → bundleTimestamp d ≤ bundleTimestamp r) ∧
    (∀ f ∈ files, isBundleFile f = true →
      f ∈ remainingAfterCleanup files unlinkOk ∨ f ∈ filesToDelete files) := by
  by_cases hlen : 2 < (files.filter isBundleFile).length
  · have hdel : filesToDelete files
        = ((sortDesc ((files.filter isBundleFile).map toEntry)).drop 2).map
            BundleEntry.name := by
      simp only [filesToDelete]
      rw [if_pos hlen]
    have hperm := sortDesc_perm ((files.filter isBundleFile).map toEntry)
    have hpair := sortDesc_pairwise ((files.filter isBundleFile).map toEntry)
    refine ⟨?_, ?_, ?_⟩
    · -- at most the 2 retained entries survive among matching names
      have hsub : (remainingAfterCleanup files unlinkOk).filter isBundleFile
          = (files.filter fun g =>
              !((filesToDelete files).contains g && unlinkOk g)).filter
              isBundleFile := rfl
      rw [hsub, List.filter_comm]
      have h1 : ((files.filter isBundleFile).filter
            fun g => !((filesToDelete files).contains g && unlinkOk g)).length
          = (((files.filter isBundleFile).map toEntry).filter
              fun e => !((filesToDelete files).contains e.name
                        && unlinkOk e.name)).length := by
        rw [List.filter_map, List.length_map]
        rfl
      rw [h1]
      have h2l : (((files.filter isBundleFile).map toEntry).filter
            fun e => !((filesToDelete files).contains e.name
                      && unlinkOk e.name)).length
          = ((sortDesc ((files.filter isBundleFile).map toEntry)).filter
              fun e => !((filesToDelete files).contains e.name
                        && unlinkOk e.name)).length :=
        ((hperm.filter _).length_eq).symm
      rw [h2l]
      set sorted := sortDesc ((files.filter isBundleFile).map toEntry) with hs
      have hsplit : sorted.take 2 ++ sorted.drop 2 = sorted :=
        List.take_append_drop 2 sorted
      have hnil : (sorted.drop 2).filter
          (fun e => !((filesToDelete files).contains e.name && unlinkOk e.name))
          = [] := by
        rw [List.filter_eq_nil_iff]
        intro e hedrop
        have hed : e.name ∈ filesToDelete files := by
          rw [hdel]
          exact List.mem_map_of_mem _ hedrop
        have hu := hok _ hed
        simp [hed, hu]
      calc (sorted.filter fun e =>
              !((filesToDelete files).contains e.name && unlinkOk e.name)).length
          = ((sorted.take 2 ++ sorted.drop 2).filter fun e =>
              !((filesToDelete files).contains e.name && unlinkOk e.name)).length := by
            rw [hsplit]
        _ ≤ 2 := by
            rw [List.filter_append, hnil, List.append_nil]
            calc ((sorted.take 2).filter fun e =>
                    !((filesToDelete files).contains e.name && unlinkOk e.name)).length
                ≤ (sorted.take 2).length := List.length_filter_le _ _
              _ ≤ 2 := List.length_take_le 2 sorted
    · -- deleted timestamps are bounded by every retained matching timestamp
      intro d hd r hr hrb
      rw [hdel] at hd
      obtain ⟨ed, hedmem, rfl⟩ := List.mem_map.mp hd
      have hm := List.mem_filter.mp hr
      have hrnotdel : r ∉ filesToDelete files := by
        intro hfd
        have hu := hok r hfd
        simp [hfd, hu] at hm
      have hrbf : r ∈ files.filter isBundleFile := List.mem_filter.mpr ⟨hm.1, hrb⟩
      have hre : toEntry r ∈ sortDesc ((files.filter isBundleFile).map toEntry) :=
        hperm.mem_iff.mpr (List.mem_map_of_mem toEntry hrbf)
      set sorted := sortDesc ((files.filter isBundleFile).map toEntry) with hs
      have hsplit : sorted.take 2 ++ sorted.drop 2 = sorted :=
        List.take_append_drop 2 sorted
      have hretake : toEntry r ∈ sorted.take 2 := by
        rw [← hsplit] at hre
        rcases List.mem_append.mp hre with h | h
        · exact h
        · exact absurd (by rw [hdel]; exact List.mem_map_of_mem _ h) hrnotdel
      have hcross := (List.pairwise_append.mp (hsplit ▸ hpair)).2.2
      have hts := hcross (toEntry r) hretake ed hedmem
      have hedin : ed ∈ sorted := List.mem_of_mem_drop hedmem
      have hed_ts : ed.timestamp = bundleTimestamp ed.name :=
        @timestamp_of_mem_sortDesc files ed (hs ▸ hedin)
      rw [← hed_ts]
      exact hts
    · intro f hf hbf
      by_cases hfd : f ∈ filesToDelete files
      · exact Or.inr hfd
      · refine Or.inl (List.mem_filter.mpr ⟨hf, ?_⟩)
        simp [hfd]
  · -- 2 or fewer matching files: nothing is deleted
    have hdel : filesToDelete files = [] := by
      simp only [filesToDelete]
      rw [if_neg hlen]
    have hrem : remainingAfterCleanup files unlinkOk = files := by
      unfold remainingAfterCleanup
      rw [hdel]
      simp
    refine ⟨?_, ?_, ?_⟩
    · rw [hrem]
      omega
    · intro d hd
      rw [hdel] at hd
      exact absurd hd (List.not_mem_nil d)
    · intro f hf _
      rw [hrem]
      exact Or.inl hf

/-- C3 witness: with four bundle files and one unrelated file, all deletions
succeeding, at most two matching names remain after the prune pass. -/
theorem c3_witness :
    (∀ f ∈ filesToDelete
        ["backend.dist.100.cjs", "backend.dist.200.cjs", "backend.dist.300.cjs",
         "backend.dist.50.cjs", "index.html"],
      (fun _ : String => true) f = true) ∧
    ((remainingAfterCleanup
        ["backend.dist.100.cjs", "backend.dist.200.cjs", "backend.dist.300.cjs",
         "backend.dist.50.cjs", "index.html"]
        (fun _ : String => true)).filter isBundleFile).length ≤ 2 :=
  ⟨by decide,
   (c3_retention
      ["backend.dist.100.cjs", "backend.dist.200.cjs", "backend.dist.300.cjs",
       "backend.dist.50.cjs", "index.html"]
      (fun _ : String => true) (by decide)).1⟩

/-- C10 counterexample: with three matching files of which two have malformed
timestamp segments, the malformed `backend.dist.aaa.cjs` is assigned
timestamp 0 yet is retained (the stable sort keeps it among the first 2), so
the claim "never retained whenever more than 2 matching files exist" fails. -/
theorem c10_counterexample :
    2 < (["backend.dist.aaa.cjs", "backend.dist.bbb.cjs",
          "backend.dist.5.cjs"].filter isBundleFile).length ∧
    isBundleFile "backend.dist.aaa.cjs" = true ∧
    tsMatch "backend.dist.aaa.cjs".data = none ∧
    bundleTimestamp "backend.dist.aaa.cjs" = 0 ∧
    "backend.dist.aaa.cjs" ∉
      filesToDelete ["backend.dist.aaa.cjs", "backend.dist.bbb.cjs",
        "backend.dist.5.cjs"] :=
  ⟨by decide, by decide, by decide, by decide, by decide⟩

/-- C10 amended: a matching file whose timestamp segment does not parse is
assigned timestamp 0 and, whenever at least 2 matching files carry positive
parsed timestamps, every such malformed file is scheduled for deletion. -/
theorem c10_amended (files : List String) (f : String)
    (h2 : 2 ≤ ((files.filter isBundleFile).filter
        fun g => 0 < bundleTimestamp g).length)
    (hf : f ∈ files) (hbf : isBundleFile f = true)
    (hmal : tsMatch f.data = none) :
    bundleTimestamp f = 0 ∧ f ∈ filesToDelete files := by
  have hts : bundleTimestamp f = 0 := by
    unfold bundleTimestamp
    rw [hmal]
    rfl
  refine ⟨hts, ?_⟩
  have hfbf : f ∈ files.filter isBundleFile := List.mem_filter.mpr ⟨hf, hbf⟩
  have hlen : 2 < (files.filter isBundleFile).length := by
    have hsplit := @List.length_eq_length_filter_add String
      (files.filter isBundleFile) (fun g => decide (0 < bundleTimestamp g))
    have hfneg : f ∈ (files.filter isBundleFile).filter
        fun g => !(decide (0 < bundleTimestamp g)) := by
      refine List.mem_filter.mpr ⟨hfbf, ?_⟩
      simp [hts]
    have h1 : 0 < ((files.filter isBundleFile).filter
        fun g => !(decide (0 < bundleTimestamp g))).length :=
      List.length_pos.mpr (List.ne_nil_of_mem hfneg)
    omega
  have hperm := sortDesc_perm ((files.filter isBundleFile).map toEntry)
  have hpair := sortDesc_pairwise ((files.filter isBundleFile).map toEntry)
  have hdel : filesToDelete files
      = ((sortDesc ((files.filter isBundleFile).map toEntry)).drop 2).map
          BundleEntry.name := by
    simp only [filesToDelete]
    rw [if_pos hlen]
  set sorted := sortDesc ((files.filter isBundleFile).map toEntry) with hs
  have hsortlen : 2 < sorted.length := by
    rw [hperm.length_eq, List.length_map]
    exact hlen
  have hposcount : 2 ≤ (sorted.filter fun e => 0 < e.timestamp).length := by
    have h1 : (sorted.filter fun e => 0 < e.timestamp).length
        = (((files.filter isBundleFile).map toEntry).filter
            fun e => 0 < e.timestamp).length := (hperm.filter _).length_eq
    have h2m : (((files.filter isBundleFile).map toEntry).filter
        fun e => 0 < e.timestamp).length
        = ((files.filter isBundleFile).filter
            fun g => 0 < bundleTimestamp g).length := by
      rw [List.filter_map, List.length_map]
      rfl
    omega
  obtain ⟨e0, e1, rest, hsde⟩ : ∃ e0 e1 rest, sorted = e0 :: e1 :: rest := by
    cases hc : sorted with
    | nil => rw [hc] at hsortlen; simp at hsortlen
    | cons a l =>
      cases hl : l with
      | nil => rw [hc, hl] at hsortlen; simp at hsortlen
      | cons b m => exact ⟨a, b, m, rfl⟩
  have hpair2 : (e0 :: e1 :: rest).Pairwise
      (fun a b => b.timestamp ≤ a.timestamp) := hsde ▸ hpair
  have he1pos : 0 < e1.timestamp := by
    by_contra hneg
    have he1z : e1.timestamp = 0 := by omega
    have hrestz : ∀ z ∈ rest, z.timestamp = 0 := by
      intro z hz
      have := (List.pairwise_cons.mp (List.pairwise_cons.mp hpair2).2).1 z hz
      omega
    have hfe1 : (e1 :: rest).filter (fun e => decide (0 < e.timestamp)) = [] := by
      rw [List.filter_eq_nil_iff]
      intro z hz
      rcases List.mem_cons.mp hz with rfl | hzr
      · simp [he1z]
      · simp [hrestz z hzr]
    have hle1 : (sorted.filter fun e => 0 < e.timestamp).length ≤ 1 := by
      rw [hsde, List.filter_cons]
      split
      · rw [hfe1]
        simp
      · rw [hfe1]
        simp
    omega
  have he0pos : 0 < e0.timestamp := by
    have := (List.pairwise_cons.mp hpair2).1 e1 (List.mem_cons_self e1 rest)
    omega
  have hfe : toEntry f ∈ sorted :=
    hperm.mem_iff.mpr (List.mem_map_of_mem toEntry hfbf)
  have hfts : (toEntry f).timestamp = 0 := hts
  rw [hsde] at hfe
  rcases List.mem_cons.mp hfe with he | hfe1
  · have : e0.timestamp = 0 := by rw [← he]; exact hfts
    omega
  rcases List.mem_cons.mp hfe1 with he | hrest
  · have : e1.timestamp = 0 := by rw [← he]; exact hfts
    omega
  · rw [hdel]
    have hdrop : sorted.drop 2 = rest := by rw [hsde]; rfl
    rw [hdrop]
    exact List.mem_map_of_mem BundleEntry.name hrest

/-- C10 amended witness: one malformed and two positive-timestamp bundle
files — the malformed one is assigned 0 and deleted. -/
theorem c10_witness :
    (2 ≤ ((["backend.dist.aaa.cjs", "backend.dist.1.cjs",
            "backend.dist.2.cjs"].filter isBundleFile).filter
        fun g => 0 < bundleTimestamp g).length) ∧
    (bundleTimestamp "backend.dist.aaa.cjs" = 0 ∧
     "backend.dist.aaa.cjs" ∈ filesToDelete
        ["backend.dist.aaa.cjs", "backend.dist.1.cjs", "backend.dist.2.cjs"]) :=
  ⟨by decide,
   c10_amended ["backend.dist.aaa.cjs", "backend.dist.1.cjs", "backend.dist.2.cjs"]
     "backend.dist.aaa.cjs" (by decide) (by decide) (by decide) (by decide)⟩

/-- C5 witness: a change event on `server/routes/hello.ts` triggers a
rebuild; one on `server/index.ts` does not. -/

theorem c5_witness :
    (watcherStep initState "change" "server/routes/hello.ts"
        (Except.ok (BackendModule.mk (some ["hello"])))).2 = true ∧
    ¬ (".ts".data <:+ "server/index.ts".data ∧
        "server/index.ts" ≠ "server/index.ts") ∧
    (watcherStep initState "change" "server/index.ts"
        (Except.ok (BackendModule.mk (some ["hello"])))).2 = false :=
  ⟨(c5_watch_filter initState "change" "server/routes/hello.ts"
      (Except.ok (BackendModule.mk (some ["hello"])))).1.mpr
      ⟨by decide, by decide⟩,
   by decide,
   by decide⟩

/-! ### Artifact naming theorems (C6) -/

theorem decimalDigits_lt (n : Nat) : ∀ d ∈ decimalDigits n, d < 10 := by
  intro d hd
  unfold decimalDigits at hd
  split at hd
  · simp at hd
    omega
  · rw [List.mem_reverse] at hd
    exact Nat.digits_lt_base (by norm_num) hd

theorem decimalDigits_inj {m n : Nat} (h : decimalDigits m = decimalDigits n) :
    m = n := by
  unfold decimalDigits at h
  by_cases hm : m = 0 <;> by_cases hn : n = 0
  · omega
  · rw [if_pos hm, if_neg hn] at h
    have hd : Nat.digits 10 n = [0] := by
      have := congrArg List.reverse h
      simpa using this.symm
    have h1 := Nat.ofDigits_digits 10 n
    rw [hd] at h1
    simp [Nat.ofDigits] at h1
    omega
  · rw [if_neg hm, if_pos hn] at h
    have hd : Nat.digits 10 m = [0] := by
      have := congrArg List.reverse h
      simpa using this
    have h1 := Nat.ofDigits_digits 10 m
    rw [hd] at h1
    simp [Nat.ofDigits] at h1
    omega
  · rw [if_neg hm, if_neg hn] at h
    have hd : Nat.digits 10 m = Nat.digits 10 n := by
      have := congrArg List.reverse h
      simpa using this
    have h1 := Nat.ofDigits_digits 10 m
    have h2 := Nat.ofDigits_digits 10 n
    rw [hd] at h1
    omega

theorem digitChar_inj : ∀ a < 10, ∀ b < 10, digitChar a = digitChar b → a = b := by
  decide

theorem map_digitChar_inj :
    ∀ (l1 l2 : List Nat), (∀ d ∈ l1, d < 10) → (∀ d ∈ l2, d < 10) →
      l1.map digitChar = l2.map digitChar → l1 = l2
  | [], [], _, _, _ => rfl
  | [], _ :: _, _, _, h => by simp at h
  | _ :: _, [], _, _, h => by simp at h
  | a :: l1, b :: l2, h1, h2, h => by
    simp only [List.map_cons, List.cons.injEq] at h
    have hab := digitChar_inj a (h1 a (List.mem_cons_self a l1))
      b (h2 b (List.mem_cons_self b l2)) h.1
    rw [hab, map_digitChar_inj l1 l2
      (fun d hd => h1 d (List.mem_cons_of_mem a hd))
      (fun d hd => h2 d (List.mem_cons_of_mem b hd)) h.2]

theorem natToDecimal_inj {m n : Nat} (h : natToDecimal m = natToDecimal n) :
    m = n := by
  unfold natToDecimal at h
  have hdata : (decimalDigits m).map digitChar = (decimalDigits n).map digitChar :=
    congrArg String.data h
  exact decimalDigits_inj
    (map_digitChar_inj _ _ (decimalDigits_lt m) (decimalDigits_lt n) hdata)

theorem bundleOutfile_inj {a b : Nat} (h : bundleOutfile a = bundleOutfile b) :
    a = b := by
  unfold bundleOutfile at h
  have hd := congrArg String.data h
  simp only [String.data_append, List.append_assoc] at hd
  have h1 := List.append_cancel_left hd
  have h2 := List.append_cancel_right h1
  exact natToDecimal_inj (String.ext h2)

/-- C6 counterexample: the clock trace of two builds starting within the same
millisecond is non-decreasing (all `Date.now()` guarantees), yet the two
builds receive the same timestamp token and hence the same artifact filename
— tokens are not strictly increasing and names are not unique. -/
theorem c6_counterexample :
    List.Chain' (fun a b => a ≤ b) [1000, 1000] ∧
    ¬ (buildFilenames [1000, 1000]).Pairwise (fun a b => a ≠ b) := by
  constructor
  · rw [List.chain'_pair]
  · intro h
    simp only [buildFilenames, List.map_cons, List.map_nil] at h
    have h1 := List.pairwise_cons.mp h
    exact h1.1 (bundleOutfile 1000) (List.mem_cons_self _ _) rfl

/-- C6 amended: builds whose `Date.now()` readings are strictly increasing
(successive builds starting in distinct milliseconds) receive strictly
increasing timestamp tokens and pairwise-distinct artifact filenames; only
builds sharing a millisecond collide. -/
theorem c6_amended (clocks : List Nat)
    (h : List.Chain' (fun a b => a < b) clocks) :
    (buildFilenames clocks).Pairwise (fun a b => a ≠ b) := by
  have hp : clocks.Pairwise (fun a b => a < b) := List.chain'_iff_pairwise.mp h
  unfold buildFilenames
  refine List.Pairwise.map bundleOutfile ?_ hp
  intro a b hab he
  exact absurd (bundleOutfile_inj he) (by omega)

/-- C6 amended witness: two builds at distinct clock readings get distinct
filenames. -/
theorem c6_witness :
    List.Chain' (fun a b => a < b) [1000, 2000] ∧
    (buildFilenames [1000, 2000]).Pairwise (fun a b => a ≠ b) :=
  ⟨by rw [List.chain'_pair]; omega,
   c6_amended [1000, 2000] (by rw [List.chain'_pair]; omega)⟩

/-! ### Dev HTML rewrite theorem (C7) -/

theorem replaceFirstAux_split (pat : List Char) (hpat : pat ≠ []) :
    ∀ l : List Char, containsSub l pat = true →
      ∃ p s, ∀ repl, replaceFirstAux pat repl l = p ++ repl ++ s := by
  intro l
  induction l with
  | nil =>
    intro h
    unfold containsSub at h
    rw [List.isEmpty_iff] at h
    exact absurd h hpat
  | cons c rest ih =>
    intro h
    unfold containsSub at h
    rw [Bool.or_eq_true] at h
    by_cases hpre : pat.isPrefixOf (c :: rest) = true
    · refine ⟨[], (c :: rest).drop pat.length, ?_⟩
      intro repl
      unfold replaceFirstAux
      rw [if_pos hpre]
      simp
    · have hc : containsSub rest pat = true := by
        rcases h with h | h
        · exact absurd h hpre
        · exact h
      obtain ⟨p, s, hps⟩ := ih hc
      refine ⟨c :: p, s, ?_⟩
      intro repl
      unfold replaceFirstAux
      rw [if_neg hpre, hps repl]
      simp

/-- C7: the dev HTML fallback rewrites the client entry-script reference to
carry the freshly generated token; whenever the template contains the script
reference and two runs of the handler generate different tokens, the two
rewritten responses differ. -/
theorem c7_fresh_token (template t1 t2 : String)
    (hocc : containsSub template.data "src=\"/main.tsx\"".data = true)
    (hne : t1 ≠ t2) :
    rewriteTemplate template t1 ≠ rewriteTemplate template t2 := by
  obtain ⟨p, s, hps⟩ :=
    replaceFirstAux_split "src=\"/main.tsx\"".data (by decide) template.data hocc
  intro he
  have hd : replaceFirstAux "src=\"/main.tsx\"".data (injectToken t1).data
        template.data
      = replaceFirstAux "src=\"/main.tsx\"".data (injectToken t2).data
        template.data :=
    congrArg String.data he
  rw [hps, hps] at hd
  simp only [List.append_assoc] at hd
  have h1 := List.append_cancel_left hd
  have h2' : "src=\"/main.tsx?v=".data ++ (t1.data ++ "\"".data)
      = "src=\"/main.tsx?v=".data ++ (t2.data ++ "\"".data) := by
    simpa [injectToken, String.data_append, List.append_assoc] using h1
  have h3 := List.append_cancel_right (List.append_cancel_left h2')
  exact hne (String.ext h3)

/-- C7 witness: on a concrete template containing the script reference, the
tokens `abc` and `xyz` yield different rewritten pages. -/
theorem c7_witness :
    containsSub "<script type=\"module\" src=\"/main.tsx\"></script>".data
        "src=\"/main.tsx\"".data = true ∧
    "abc" ≠ "xyz" ∧
    rewriteTemplate "<script type=\"module\" src=\"/main.tsx\"></script>" "abc"
      ≠ rewriteTemplate "<script type=\"module\" src=\"/main.tsx\"></script>" "xyz" :=
  ⟨by decide, by decide,
   c7_fresh_token "<script type=\"module\" src=\"/main.tsx\"></script>" "abc" "xyz"
     (by decide) (by decide)⟩

end Srv
